import Mathlib

/-!
# Paddle game (`project2.cpp`): the simulation core

A shallow embedding of the game logic of `src/project2.cpp`:
`check_collision`, `process_input`, `update`, the state set up by
`initialise`, and the frame loop of `main`.

Modelling conventions.

* The global variables of the program are the fields of `State`; every
  function that mutates globals becomes a function `State → State`.
* In `State` and in `check_collision`, `process_input` and `update`, `float`
  is modelled by exact rational arithmetic (`ℚ`): a literal such as `0.05f` is
  the rational `1/20`.  This model carries the statements about control flow,
  comparisons and clamping.
* Where rounding decides a statement (the collision test against the
  absolute-value formula, and the cancellation of `+= 0.05f` and `-= 0.05f`),
  the same code is modelled a second time in IEEE-754 binary32:
  `check_collision_f32` and `process_input_f32`.  A finite binary32 value is an
  integer multiple of `2^-149` and is stored as that integer; every sum,
  difference and halving is rounded to 24 significant bits, ties to even.
  Infinities and NaN are outside both models.
* What the program reads from SDL becomes an explicit argument: the events
  returned by `SDL_PollEvent`, the snapshot of `SDL_GetKeyboardState`, the
  value of `SDL_GetTicks() / 1000`, and the value of `sin (SDL_GetTicks() / 1000)`
  used by the automatic paddle.
* `glm::mat4`, `glm::translate`, `glm::scale` and `glm::clamp` follow the GLM
  library (column-major matrices).
* Rendering, texture loading and console output do not influence the game
  state and are left out.
-/

set_option maxRecDepth 4000

namespace Project2

/-! ## GLM -/

namespace glm

/-- The type `glm::vec3`. -/
structure vec3 where
  x : ℚ
  y : ℚ
  z : ℚ
  deriving DecidableEq

/-- The type `glm::vec4`. -/
structure vec4 where
  x : ℚ
  y : ℚ
  z : ℚ
  w : ℚ
  deriving DecidableEq

/-- The type `glm::mat4`: four columns, `m[0]` to `m[3]`. -/
structure mat4 where
  c0 : vec4
  c1 : vec4
  c2 : vec4
  c3 : vec4
  deriving DecidableEq

/-- Column times scalar, `v * k`. -/
def vec4.mul (v : vec4) (k : ℚ) : vec4 :=
  ⟨v.x * k, v.y * k, v.z * k, v.w * k⟩

/-- Column plus column, `u + v`. -/
def vec4.add (u v : vec4) : vec4 :=
  ⟨u.x + v.x, u.y + v.y, u.z + v.z, u.w + v.w⟩

/-- The identity matrix `glm::mat4(1.0f)`. -/
def mat4_one : mat4 :=
  ⟨⟨1, 0, 0, 0⟩, ⟨0, 1, 0, 0⟩, ⟨0, 0, 1, 0⟩, ⟨0, 0, 0, 1⟩⟩

/-- The function `glm::translate(m, v)`:
`Result = m; Result[3] = m[0] * v[0] + m[1] * v[1] + m[2] * v[2] + m[3]`. -/
def translate (m : mat4) (v : vec3) : mat4 :=
  { m with c3 := (((m.c0.mul v.x).add (m.c1.mul v.y)).add (m.c2.mul v.z)).add m.c3 }

/-- The function `glm::scale(m, v)`:
`Result[0] = m[0] * v[0]; Result[1] = m[1] * v[1]; Result[2] = m[2] * v[2]; Result[3] = m[3]`. -/
def scale (m : mat4) (v : vec3) : mat4 :=
  ⟨m.c0.mul v.x, m.c1.mul v.y, m.c2.mul v.z, m.c3⟩

/-- The conversion `glm::vec3(v)` of a `vec4`: the first three components. -/
def vec3_of (v : vec4) : vec3 :=
  ⟨v.x, v.y, v.z⟩

/-- The function `glm::max(x, y)`: `(x < y) ? y : x`. -/
def max (x y : ℚ) : ℚ := if x < y then y else x

/-- The function `glm::min(x, y)`: `(y < x) ? y : x`. -/
def min (x y : ℚ) : ℚ := if y < x then y else x

/-- The function `glm::clamp(x, minVal, maxVal)`: `min(max(x, minVal), maxVal)`. -/
def clamp (x minVal maxVal : ℚ) : ℚ := min (max x minVal) maxVal

end glm

/-! ## SDL input -/

/-- The fields of an `SDL_Event` the program reads: `event.type`,
`event.key.keysym.sym` and (not read by the program) `event.key.repeat`,
which SDL sets to non-zero on key-down events generated while a key is held. -/
structure SDL_Event where
  type : Nat
  sym : Int
  keyRepeat : Nat
  deriving DecidableEq

/-- The event type `SDL_QUIT` (`0x100`). -/
def SDL_QUIT : Nat := 0x100
/-- The window event id `SDL_WINDOWEVENT_CLOSE` (the 15th `SDL_WindowEventID`). -/
def SDL_WINDOWEVENT_CLOSE : Nat := 14
/-- The event type `SDL_KEYDOWN` (`0x300`). -/
def SDL_KEYDOWN : Nat := 0x300
/-- The event type `SDL_KEYUP` (`0x301`). -/
def SDL_KEYUP : Nat := 0x301
/-- The key code `SDLK_t`, the character `t`. -/
def SDLK_t : Int := 116

/-- The entries of `SDL_GetKeyboardState` the program reads. -/
structure KeyboardState where
  SDL_SCANCODE_W : Bool
  SDL_SCANCODE_S : Bool
  SDL_SCANCODE_UP : Bool
  SDL_SCANCODE_DOWN : Bool
  deriving DecidableEq

/-! ## Program state -/

/-- The enum `AppStatus`. -/
inductive AppStatus where
  | RUNNING
  | TERMINATED
  deriving DecidableEq

/-- The global variables of the program that carry game state. -/
structure State where
  g_app_status : AppStatus
  g_left_paddle_matrix : glm.mat4
  g_right_paddle_matrix : glm.mat4
  g_ball_matrix : glm.mat4
  g_previous_ticks : ℚ
  g_left_paddle_y : ℚ
  g_right_paddle_y : ℚ
  g_ball_x_velocity : ℚ
  g_ball_y_velocity : ℚ
  ball_position : glm.vec3
  g_right_paddle_auto : Bool
  g_game_over : Bool
  g_player_won : Int
  deriving DecidableEq

/-- The globals after static initialisation and `initialise()`: the paddle
matrices are the identity, the ball matrix is
`scale(translate(mat4(1), (0,0,0)), (0.2, 0.2, 1))`, the velocities are
`2.5` and `2.0`, everything else is zero or false. -/
def initialise : State :=
  { g_app_status := AppStatus.RUNNING
    g_left_paddle_matrix := glm.mat4_one
    g_right_paddle_matrix := glm.mat4_one
    g_ball_matrix := glm.scale (glm.translate glm.mat4_one ⟨0, 0, 0⟩) ⟨1/5, 1/5, 1⟩
    g_previous_ticks := 0
    g_left_paddle_y := 0
    g_right_paddle_y := 0
    g_ball_x_velocity := 5/2
    g_ball_y_velocity := 2
    ball_position := ⟨0, 0, 0⟩
    g_right_paddle_auto := false
    g_game_over := false
    g_player_won := 0 }

/-! ## Game logic -/

/-- The function `check_collision(ball_pos, paddle_pos, paddle_width, paddle_height, ball_radius)`. -/
def check_collision (ball_pos paddle_pos : glm.vec3)
    (paddle_width paddle_height ball_radius : ℚ) : Bool :=
  let paddle_half_width := paddle_width / 2
  let paddle_half_height := paddle_height / 2
  let collision_x : Bool :=
    decide (ball_pos.x + ball_radius ≥ paddle_pos.x - paddle_half_width) &&
    decide (ball_pos.x - ball_radius ≤ paddle_pos.x + paddle_half_width)
  let collision_y : Bool :=
    decide (ball_pos.y + ball_radius ≥ paddle_pos.y - paddle_half_height) &&
    decide (ball_pos.y - ball_radius ≤ paddle_pos.y + paddle_half_height)
  collision_x && collision_y

/-- The body of the `while (SDL_PollEvent(&event))` loop of `process_input`. -/
def handle_event (s : State) (event : SDL_Event) : State :=
  let s1 : State :=
    if event.type = SDL_QUIT ∨ event.type = SDL_WINDOWEVENT_CLOSE then
      { s with g_app_status := AppStatus.TERMINATED }
    else s
  if event.type = SDL_KEYDOWN then
    if event.sym = SDLK_t then
      { s1 with g_right_paddle_auto := !s1.g_right_paddle_auto }
    else s1
  else s1

/-- The function `process_input()`; `events` are the events `SDL_PollEvent`
returns before the queue is empty, `keys` is the keyboard snapshot. -/
def process_input (events : List SDL_Event) (keys : KeyboardState) (s : State) : State :=
  let s0 : State := events.foldl handle_event s
  let s1 : State :=
    if keys.SDL_SCANCODE_W then { s0 with g_left_paddle_y := s0.g_left_paddle_y + 1/20 } else s0
  let s2 : State :=
    if keys.SDL_SCANCODE_S then { s1 with g_left_paddle_y := s1.g_left_paddle_y - 1/20 } else s1
  let s3 : State :=
    if !s2.g_right_paddle_auto then
      let t1 : State :=
        if keys.SDL_SCANCODE_UP then
          { s2 with g_right_paddle_y := s2.g_right_paddle_y + 1/20 }
        else s2
      if keys.SDL_SCANCODE_DOWN then
        { t1 with g_right_paddle_y := t1.g_right_paddle_y - 1/20 }
      else t1
    else s2
  let s4 : State := { s3 with g_left_paddle_y := glm.clamp s3.g_left_paddle_y (-3/4) (3/4) }
  { s4 with g_right_paddle_y := glm.clamp s4.g_right_paddle_y (-3/4) (3/4) }

/-- The function `update()`; `ticks` is `(float)SDL_GetTicks() / 1000.0f` and
`sin_ticks` is `sin(SDL_GetTicks() / 1000.0f)` of the automatic paddle. -/
def update (ticks sin_ticks : ℚ) (s : State) : State :=
  let delta_time := ticks - s.g_previous_ticks
  let s0 : State := { s with g_previous_ticks := ticks }
  if s0.g_game_over then s0
  else
    let s1 : State :=
      { s0 with
        g_left_paddle_matrix := glm.translate glm.mat4_one ⟨-8/5, s0.g_left_paddle_y, 0⟩
        g_right_paddle_matrix := glm.translate glm.mat4_one ⟨8/5, s0.g_right_paddle_y, 0⟩ }
    let s2 : State :=
      { s1 with
        g_ball_matrix := glm.translate s1.g_ball_matrix
          ⟨s1.g_ball_x_velocity * delta_time, s1.g_ball_y_velocity * delta_time, 0⟩ }
    let s3 : State := { s2 with ball_position := glm.vec3_of s2.g_ball_matrix.c3 }
    let s4 : State :=
      if s3.ball_position.y + 1/10 ≥ 1 ∨ s3.ball_position.y - 1/10 ≤ -1 then
        { s3 with g_ball_y_velocity := -s3.g_ball_y_velocity }
      else s3
    let left_paddle_pos := glm.vec3_of s4.g_left_paddle_matrix.c3
    let right_paddle_pos := glm.vec3_of s4.g_right_paddle_matrix.c3
    let s5 : State :=
      if check_collision s4.ball_position left_paddle_pos (1/5) 1 (1/10) then
        { s4 with g_ball_x_velocity := |s4.g_ball_x_velocity| * (6/5) }
      else s4
    let s6 : State :=
      if check_collision s5.ball_position right_paddle_pos (1/5) 1 (1/10) then
        { s5 with g_ball_x_velocity := -|s5.g_ball_x_velocity| * (6/5) }
      else s5
    let s7 : State :=
      if s6.ball_position.x ≤ -1777/1000 then
        { s6 with g_game_over := true, g_player_won := 2 }
      else if s6.ball_position.x ≥ 1777/1000 then
        { s6 with g_game_over := true, g_player_won := 1 }
      else s6
    if s7.g_right_paddle_auto then
      let s8 : State := { s7 with g_right_paddle_y := s7.g_right_paddle_y + 3/100 * sin_ticks }
      { s8 with g_right_paddle_y := glm.clamp s8.g_right_paddle_y (-3/4) (3/4) }
    else s7

/-- What one iteration of the loop of `main` reads from SDL. -/
structure FrameInput where
  events : List SDL_Event
  keys : KeyboardState
  ticks : ℚ
  sin_ticks : ℚ

/-- One iteration of the loop of `main`: `process_input(); update();`
(`render()` does not change the game state). -/
def frame (i : FrameInput) (s : State) : State :=
  update i.ticks i.sin_ticks (process_input i.events i.keys s)

/-- The loop `while (g_app_status == RUNNING) { ... }` of `main` on a finite
sequence of frame inputs. -/
def main_loop : List FrameInput → State → State
  | [], s => s
  | i :: rest, s =>
    if s.g_app_status = AppStatus.RUNNING then main_loop rest (frame i s) else s

/-! ## Notions used in the statements -/

/-- Is the event a key-down event of the T key (with or without the repeat mark)? -/
def is_toggle_keydown (event : SDL_Event) : Bool :=
  decide (event.type = SDL_KEYDOWN) && decide (event.sym = SDLK_t)

/-- Is the event a key-down event of the T key that is not a key repeat, that
is, an up-to-down transition of the key? -/
def is_toggle_press (event : SDL_Event) : Bool :=
  is_toggle_keydown event && decide (event.keyRepeat = 0)

/-- Does the event end the program (`SDL_QUIT`, or a type equal to `SDL_WINDOWEVENT_CLOSE`)? -/
def is_quit (event : SDL_Event) : Bool :=
  decide (event.type = SDL_QUIT ∨ event.type = SDL_WINDOWEVENT_CLOSE)

/-- Flip a flag `n` times. -/
def flip_times (n : Nat) (b : Bool) : Bool :=
  if n % 2 = 1 then !b else b

/-- The two key tests of one paddle: `if (up) y += 0.05f; if (down) y -= 0.05f;`. -/
def move_paddle (up down : Bool) (y : ℚ) : ℚ :=
  let y1 := if up then y + 1/20 else y
  if down then y1 - 1/20 else y1

/-- The ball position `update` reads from the ball matrix after translating it. -/
def moved_ball (ticks : ℚ) (s : State) : glm.vec3 :=
  glm.vec3_of (glm.translate s.g_ball_matrix
    ⟨s.g_ball_x_velocity * (ticks - s.g_previous_ticks),
     s.g_ball_y_velocity * (ticks - s.g_previous_ticks), 0⟩).c3

/-- The test of the left paddle in `update`, on the moved ball. -/
def hits_left (ticks : ℚ) (s : State) : Bool :=
  check_collision (moved_ball ticks s) ⟨-8/5, s.g_left_paddle_y, 0⟩ (1/5) 1 (1/10)

/-- The test of the right paddle in `update`, on the moved ball. -/
def hits_right (ticks : ℚ) (s : State) : Bool :=
  check_collision (moved_ball ticks s) ⟨8/5, s.g_right_paddle_y, 0⟩ (1/5) 1 (1/10)

/-- The wall test of `update`, on the moved ball. -/
def hits_wall (ticks : ℚ) (s : State) : Bool :=
  decide ((moved_ball ticks s).y + 1/10 ≥ 1 ∨ (moved_ball ticks s).y - 1/10 ≤ -1)

/-- Both paddle offsets are inside `[-0.75, 0.75]`. -/
def paddles_in_bounds (s : State) : Prop :=
  (-3/4 ≤ s.g_left_paddle_y ∧ s.g_left_paddle_y ≤ 3/4) ∧
  (-3/4 ≤ s.g_right_paddle_y ∧ s.g_right_paddle_y ≤ 3/4)

/-- The bounds test can be evaluated. -/
instance paddles_in_bounds_decidable (s : State) : Decidable (paddles_in_bounds s) := by
  unfold paddles_in_bounds
  infer_instance

/-- The first three columns of the ball matrix are the ones `initialise` sets
with `glm::scale(..., (0.2, 0.2, 1.0))`. -/
def ball_matrix_scaled (m : glm.mat4) : Prop :=
  m.c0 = ⟨1/5, 0, 0, 0⟩ ∧ m.c1 = ⟨0, 1/5, 0, 0⟩ ∧ m.c2 = ⟨0, 0, 1, 0⟩

/-- The test of the scale columns can be evaluated. -/
instance ball_matrix_scaled_decidable (m : glm.mat4) : Decidable (ball_matrix_scaled m) := by
  unfold ball_matrix_scaled
  infer_instance

/-- The states the program can be in: the initial one, and every state that a
call of `process_input` or `update` produces from one of them. -/
inductive Reachable : State → Prop where
  | start : Reachable initialise
  | input (s : State) (events : List SDL_Event) (keys : KeyboardState) :
      Reachable s → Reachable (process_input events keys s)
  | tick (s : State) (ticks sin_ticks : ℚ) :
      Reachable s → Reachable (update ticks sin_ticks s)

/-! ## Binary32 arithmetic

A finite binary32 value is `n * 2^-149` for an integer `n` whose magnitude has
at most 24 significant bits; it is stored as `n`. -/

namespace f32

/-- The number of low bits to drop from `a` to leave at most 24 bits
(`fuel` bounds the number of steps; `a` itself is always enough). -/
def drop_bits : Nat → Nat → Nat
  | 0, _ => 0
  | fuel + 1, a => if a < 2 ^ 24 then 0 else drop_bits fuel (a / 2) + 1

/-- The binary32 value nearest to `n / 2^k` units, ties to even: the magnitude
is cut to 24 significant bits and to whole units, and the dropped part decides
whether the last kept bit goes up. -/
def round_scaled (n : Int) (k : Nat) : Int :=
  let a := n.natAbs
  let s := Nat.max (drop_bits a a) k
  let q := a / 2 ^ s
  let r := a % 2 ^ s
  let q1 :=
    if 2 * r < 2 ^ s then q
    else if 2 * r > 2 ^ s then q + 1
    else if q % 2 = 0 then q else q + 1
  n.sign * ((q1 * 2 ^ (s - k) : Nat) : Int)

/-- Rounding of an exact sum or difference to binary32. -/
def round (n : Int) : Int := round_scaled n 0

/-- The `float` sum `a + b`. -/
def add (a b : Int) : Int := round (a + b)

/-- The `float` difference `a - b`. -/
def sub (a b : Int) : Int := round (a - b)

/-- The `float` quotient `a / 2.0f`. -/
def half (a : Int) : Int := round_scaled a 1

/-- The rational number a stored binary32 value stands for. -/
def to_rat (n : Int) : ℚ := n / 2 ^ 149

/-- The literal `0.05f`, that is `0x1.99999ap-5`. -/
def lit_0_05 : Int := 13421773 * 2 ^ 121

/-- The literal `0.75f`. -/
def lit_0_75 : Int := 3 * 2 ^ 147

end f32

namespace glm

/-- The type `glm::vec3` with binary32 components. -/
structure vec3_f32 where
  x : Int
  y : Int
  z : Int
  deriving DecidableEq

/-- The function `glm::max(x, y)` on binary32 values: `(x < y) ? y : x`. -/
def max_f32 (x y : Int) : Int := if x < y then y else x

/-- The function `glm::min(x, y)` on binary32 values: `(y < x) ? y : x`. -/
def min_f32 (x y : Int) : Int := if y < x then y else x

/-- The function `glm::clamp(x, minVal, maxVal)` on binary32 values. -/
def clamp_f32 (x minVal maxVal : Int) : Int := min_f32 (max_f32 x minVal) maxVal

end glm

/-- The function `check_collision` in binary32: the two halvings and the eight
sums and differences are rounded. -/
def check_collision_f32 (ball_pos paddle_pos : glm.vec3_f32)
    (paddle_width paddle_height ball_radius : Int) : Bool :=
  let paddle_half_width := f32.half paddle_width
  let paddle_half_height := f32.half paddle_height
  let collision_x : Bool :=
    decide (f32.add ball_pos.x ball_radius ≥ f32.sub paddle_pos.x paddle_half_width) &&
    decide (f32.sub ball_pos.x ball_radius ≤ f32.add paddle_pos.x paddle_half_width)
  let collision_y : Bool :=
    decide (f32.add ball_pos.y ball_radius ≥ f32.sub paddle_pos.y paddle_half_height) &&
    decide (f32.sub ball_pos.y ball_radius ≤ f32.add paddle_pos.y paddle_half_height)
  collision_x && collision_y

/-- The globals `process_input` reads and writes, the two offsets as binary32
values. -/
structure InputGlobals_f32 where
  g_app_status : AppStatus
  g_left_paddle_y : Int
  g_right_paddle_y : Int
  g_right_paddle_auto : Bool
  deriving DecidableEq

/-- The body of the event loop of `process_input`, on `InputGlobals_f32`. -/
def handle_event_f32 (s : InputGlobals_f32) (event : SDL_Event) : InputGlobals_f32 :=
  let s1 : InputGlobals_f32 :=
    if event.type = SDL_QUIT ∨ event.type = SDL_WINDOWEVENT_CLOSE then
      { s with g_app_status := AppStatus.TERMINATED }
    else s
  if event.type = SDL_KEYDOWN then
    if event.sym = SDLK_t then
      { s1 with g_right_paddle_auto := !s1.g_right_paddle_auto }
    else s1
  else s1

/-- The function `process_input()` in binary32: `+= 0.05f` and `-= 0.05f` are
rounded sums and differences. -/
def process_input_f32 (events : List SDL_Event) (keys : KeyboardState)
    (s : InputGlobals_f32) : InputGlobals_f32 :=
  let s0 : InputGlobals_f32 := events.foldl handle_event_f32 s
  let s1 : InputGlobals_f32 :=
    if keys.SDL_SCANCODE_W then
      { s0 with g_left_paddle_y := f32.add s0.g_left_paddle_y f32.lit_0_05 }
    else s0
  let s2 : InputGlobals_f32 :=
    if keys.SDL_SCANCODE_S then
      { s1 with g_left_paddle_y := f32.sub s1.g_left_paddle_y f32.lit_0_05 }
    else s1
  let s3 : InputGlobals_f32 :=
    if !s2.g_right_paddle_auto then
      let t1 : InputGlobals_f32 :=
        if keys.SDL_SCANCODE_UP then
          { s2 with g_right_paddle_y := f32.add s2.g_right_paddle_y f32.lit_0_05 }
        else s2
      if keys.SDL_SCANCODE_DOWN then
        { t1 with g_right_paddle_y := f32.sub t1.g_right_paddle_y f32.lit_0_05 }
      else t1
    else s2
  let s4 : InputGlobals_f32 :=
    { s3 with
      g_left_paddle_y := glm.clamp_f32 s3.g_left_paddle_y (-f32.lit_0_75) f32.lit_0_75 }
  { s4 with
    g_right_paddle_y := glm.clamp_f32 s4.g_right_paddle_y (-f32.lit_0_75) f32.lit_0_75 }

/-- The globals of `process_input` after static initialisation. -/
def initialise_f32 : InputGlobals_f32 :=
  { g_app_status := AppStatus.RUNNING
    g_left_paddle_y := 0
    g_right_paddle_y := 0
    g_right_paddle_auto := false }

/-- The two key tests of one paddle in binary32:
`if (up) y += 0.05f; if (down) y -= 0.05f;`. -/
def move_paddle_f32 (up down : Bool) (y : Int) : Int :=
  let y1 := if up then f32.add y f32.lit_0_05 else y
  if down then f32.sub y1 f32.lit_0_05 else y1

/-- What W and S held together do to an offset in binary32: add, subtract,
clamp. -/
def both_keys_f32 (y : Int) : Int :=
  glm.clamp_f32 (f32.sub (f32.add y f32.lit_0_05) f32.lit_0_05) (-f32.lit_0_75) f32.lit_0_75

/-! ## Concrete inputs and states -/

/-- No key held. -/
def no_keys : KeyboardState := ⟨false, false, false, false⟩

/-- Only W held. -/
def key_w_held : KeyboardState := ⟨true, false, false, false⟩

/-- A frame without events or keys at time `ticks` (in seconds). -/
def idle_frame (ticks : ℚ) : FrameInput := ⟨[], no_keys, ticks, 0⟩

/-- The state after one idle frame that lasts four seconds: the ball has left
the court on the right. -/
def finished_state : State := frame (idle_frame 4) initialise

/-- W, S, UP and DOWN all held. -/
def all_keys_held : KeyboardState := ⟨true, true, true, true⟩

/-- The binary32 offsets with the left paddle at `0.75f` and the right paddle
at `-0.75f`. -/
def at_bounds_f32 : InputGlobals_f32 :=
  { initialise_f32 with g_left_paddle_y := f32.lit_0_75, g_right_paddle_y := -f32.lit_0_75 }

/-- W and S held. -/
def key_w_s_held : KeyboardState := ⟨true, true, false, false⟩

/-- UP and DOWN held. -/
def key_up_down_held : KeyboardState := ⟨false, false, true, true⟩

/-- The state after one idle frame that ends at 2.25 s: the ball has just
touched the top wall. -/
def bounced_state : State := update (9/4) 0 initialise

/-- The binary32 offsets after two frames with W held: the left paddle is at
`0.1f`. -/
def two_w_frames_f32 : InputGlobals_f32 :=
  process_input_f32 [] key_w_held (process_input_f32 [] key_w_held initialise_f32)

/-- A key-down event of T that is an up-to-down transition. -/
def toggle_press : SDL_Event := ⟨SDL_KEYDOWN, SDLK_t, 0⟩

/-- A key-down event of T generated by key repeat while T is held. -/
def toggle_repeat : SDL_Event := ⟨SDL_KEYDOWN, SDLK_t, 1⟩

/-! ## The event loop -/

/-- Flipping zero times changes nothing. -/
theorem flip_times_zero (b : Bool) : flip_times 0 b = b := by
  simp [flip_times]

/-- One more flip is a flip of the negated flag. -/
theorem flip_times_succ (n : Nat) (b : Bool) : flip_times (n + 1) b = flip_times n (!b) := by
  unfold flip_times
  rcases Nat.mod_two_eq_zero_or_one n with h | h
  · have h1 : (n + 1) % 2 = 1 := by omega
    simp [h, h1]
  · have h1 : (n + 1) % 2 = 0 := by omega
    simp [h, h1]

/-- One event changes at most the application status and the automatic-mode flag. -/
theorem handle_event_eq (s : State) (event : SDL_Event) :
    handle_event s event =
      { s with
        g_app_status := if is_quit event then AppStatus.TERMINATED else s.g_app_status
        g_right_paddle_auto :=
          if is_toggle_keydown event then !s.g_right_paddle_auto else s.g_right_paddle_auto } := by
  unfold handle_event is_quit is_toggle_keydown
  cases s
  split_ifs <;> simp_all

/-- The event loop sets the status to `TERMINATED` when a quit event is in the queue
and flips the automatic-mode flag once per key-down event of T. -/
theorem foldl_handle_event_eq (events : List SDL_Event) (s : State) :
    events.foldl handle_event s =
      { s with
        g_app_status := if events.any is_quit then AppStatus.TERMINATED else s.g_app_status
        g_right_paddle_auto :=
          flip_times (events.countP is_toggle_keydown) s.g_right_paddle_auto } := by
  induction events generalizing s with
  | nil => simp [flip_times_zero]
  | cons e rest ih =>
    rw [List.foldl_cons, ih, handle_event_eq]
    by_cases hq : is_quit e = true <;> by_cases hk : is_toggle_keydown e = true <;>
      simp [hq, hk, List.countP_cons, flip_times_succ]

/-! ## The effect of `process_input` and `update`, field by field -/

/-- The state after `process_input`, as one record update of the state before. -/
theorem process_input_eq (events : List SDL_Event) (keys : KeyboardState) (s : State) :
    process_input events keys s =
      { s with
        g_app_status := if events.any is_quit then AppStatus.TERMINATED else s.g_app_status
        g_right_paddle_auto :=
          flip_times (events.countP is_toggle_keydown) s.g_right_paddle_auto
        g_left_paddle_y :=
          glm.clamp (move_paddle keys.SDL_SCANCODE_W keys.SDL_SCANCODE_S s.g_left_paddle_y)
            (-3/4) (3/4)
        g_right_paddle_y :=
          glm.clamp
            (if flip_times (events.countP is_toggle_keydown) s.g_right_paddle_auto then
              s.g_right_paddle_y
            else move_paddle keys.SDL_SCANCODE_UP keys.SDL_SCANCODE_DOWN s.g_right_paddle_y)
            (-3/4) (3/4) } := by
  unfold process_input move_paddle
  rw [foldl_handle_event_eq]
  rcases keys with ⟨w, d, up, down⟩
  cases w <;> cases d <;> cases up <;> cases down <;>
    cases flip_times (List.countP is_toggle_keydown events) s.g_right_paddle_auto <;> simp

/-- The position `update` reads back from a paddle matrix it has just built. -/
theorem paddle_pos_eq (x y : ℚ) :
    glm.vec3_of (glm.translate glm.mat4_one ⟨x, y, 0⟩).c3 = ⟨x, y, 0⟩ := by
  simp [glm.vec3_of, glm.translate, glm.mat4_one, glm.vec4.add, glm.vec4.mul]

/-- In a Finished state `update` only records the time. -/
theorem update_game_over (ticks sin_ticks : ℚ) (s : State) (h : s.g_game_over = true) :
    update ticks sin_ticks s = { s with g_previous_ticks := ticks } := by
  unfold update
  simp [h]

/-- The state after `update` from an Active state, as one record update of the
state before. -/
theorem update_active_eq (ticks sin_ticks : ℚ) (s : State) (h : s.g_game_over = false) :
    update ticks sin_ticks s =
      { s with
        g_previous_ticks := ticks
        g_left_paddle_matrix := glm.translate glm.mat4_one ⟨-8/5, s.g_left_paddle_y, 0⟩
        g_right_paddle_matrix := glm.translate glm.mat4_one ⟨8/5, s.g_right_paddle_y, 0⟩
        g_ball_matrix := glm.translate s.g_ball_matrix
          ⟨s.g_ball_x_velocity * (ticks - s.g_previous_ticks),
           s.g_ball_y_velocity * (ticks - s.g_previous_ticks), 0⟩
        ball_position := moved_ball ticks s
        g_ball_y_velocity :=
          if hits_wall ticks s then -s.g_ball_y_velocity else s.g_ball_y_velocity
        g_ball_x_velocity :=
          if hits_right ticks s then
            -|if hits_left ticks s then |s.g_ball_x_velocity| * (6/5)
              else s.g_ball_x_velocity| * (6/5)
          else if hits_left ticks s then |s.g_ball_x_velocity| * (6/5)
          else s.g_ball_x_velocity
        g_game_over :=
          decide ((moved_ball ticks s).x ≤ -1777/1000 ∨ (moved_ball ticks s).x ≥ 1777/1000)
        g_player_won :=
          if (moved_ball ticks s).x ≤ -1777/1000 then 2
          else if (moved_ball ticks s).x ≥ 1777/1000 then 1
          else s.g_player_won
        g_right_paddle_y :=
          if s.g_right_paddle_auto then
            glm.clamp (s.g_right_paddle_y + 3/100 * sin_ticks) (-3/4) (3/4)
          else s.g_right_paddle_y } := by
  obtain ⟨a, lm, rm, bm, pt, ly, ry, vx, vy, bp, au, go, pw⟩ := s
  dsimp only at h
  subst h
  unfold hits_wall hits_left hits_right
  dsimp only
  generalize hp : moved_ball ticks _ = p
  unfold moved_ball at hp
  dsimp only at hp
  by_cases hw : p.y + 1 / 10 ≥ 1 ∨ p.y - 1 / 10 ≤ -1 <;>
  by_cases hl : check_collision p ⟨-8/5, ly, 0⟩ (1/5) 1 (1/10) = true <;>
  by_cases hr : check_collision p ⟨8/5, ry, 0⟩ (1/5) 1 (1/10) = true <;>
  by_cases hx1 : p.x ≤ -1777/1000 <;>
  by_cases hx2 : p.x ≥ 1777/1000 <;>
  cases au <;>
  simp only [update, hp, hw, hl, hr, hx1, hx2, paddle_pos_eq, if_true, if_false,
    Bool.false_eq_true, or_true, true_or, or_self, decide_True, decide_False]

/-! ## Clamping and collision geometry -/

/-- A clamped value lies in `[-0.75, 0.75]`. -/
theorem clamp_mem (x : ℚ) : -3/4 ≤ glm.clamp x (-3/4) (3/4) ∧ glm.clamp x (-3/4) (3/4) ≤ 3/4 := by
  unfold glm.clamp glm.min glm.max
  split_ifs <;> constructor <;> linarith

/-- Clamping does not change a value inside `[-0.75, 0.75]`. -/
theorem clamp_of_mem (x : ℚ) (h1 : -3/4 ≤ x) (h2 : x ≤ 3/4) : glm.clamp x (-3/4) (3/4) = x := by
  unfold glm.clamp glm.min glm.max
  split_ifs <;> linarith

/-- The four comparisons of `check_collision`. -/
theorem check_collision_true_iff (ball_pos paddle_pos : glm.vec3) (w h r : ℚ) :
    check_collision ball_pos paddle_pos w h r = true ↔
      (paddle_pos.x - w / 2 ≤ ball_pos.x + r ∧ ball_pos.x - r ≤ paddle_pos.x + w / 2) ∧
      (paddle_pos.y - h / 2 ≤ ball_pos.y + r ∧ ball_pos.y - r ≤ paddle_pos.y + h / 2) := by
  simp [check_collision]

/-- No ball position passes the test of both paddles. -/
theorem not_both_paddles (p : glm.vec3) (ly ry : ℚ) :
    ¬ (check_collision p ⟨-8/5, ly, 0⟩ (1/5) 1 (1/10) = true ∧
       check_collision p ⟨8/5, ry, 0⟩ (1/5) 1 (1/10) = true) := by
  rw [check_collision_true_iff, check_collision_true_iff]
  rintro ⟨⟨⟨_, h1⟩, _⟩, ⟨⟨h2, _⟩, _⟩⟩
  dsimp only at h1 h2
  linarith

/-- After `process_input` both offsets are in bounds. -/
theorem process_input_in_bounds (events : List SDL_Event) (keys : KeyboardState) (s : State) :
    paddles_in_bounds (process_input events keys s) := by
  rw [process_input_eq]
  exact ⟨clamp_mem _, clamp_mem _⟩

/-- The function `update` keeps the offsets in bounds. -/
theorem update_in_bounds (ticks sin_ticks : ℚ) (s : State) (h : paddles_in_bounds s) :
    paddles_in_bounds (update ticks sin_ticks s) := by
  cases hg : s.g_game_over
  · rw [update_active_eq _ _ _ hg]
    refine ⟨h.1, ?_⟩
    dsimp only
    split_ifs
    · exact clamp_mem _
    · exact h.2
  · rw [update_game_over _ _ _ hg]
    exact h

/-- The initial offsets are in bounds. -/
theorem initialise_in_bounds : paddles_in_bounds initialise := by
  norm_num [paddles_in_bounds, initialise]

/-- The main loop keeps the offsets in bounds. -/
theorem main_loop_in_bounds (inputs : List FrameInput) (s : State) (h : paddles_in_bounds s) :
    paddles_in_bounds (main_loop inputs s) := by
  induction inputs generalizing s with
  | nil => exact h
  | cons i rest ih =>
    unfold main_loop
    split_ifs
    · exact ih _ (update_in_bounds _ _ _ (process_input_in_bounds _ _ _))
    · exact h

/-! ## Claims -/

/-- C2: from an Active state (`g_game_over = false`, `g_player_won = 0`), after
`update` the round is Finished with `g_player_won = 2` when the updated ball
x is `≤ -1.777`, Finished with `g_player_won = 1` when it is `≥ 1.777`, and
still Active with no winner when it lies strictly between; the updated ball
x is the one stored in the ball matrix. -/
theorem win_condition_boundary (s : State) (hg : s.g_game_over = false)
    (hw : s.g_player_won = 0) (ticks sin_ticks : ℚ) :
    (update ticks sin_ticks s).ball_position =
      glm.vec3_of (update ticks sin_ticks s).g_ball_matrix.c3 ∧
    ((update ticks sin_ticks s).ball_position.x ≤ -1777/1000 →
      (update ticks sin_ticks s).g_game_over = true ∧
      (update ticks sin_ticks s).g_player_won = 2) ∧
    ((update ticks sin_ticks s).ball_position.x ≥ 1777/1000 →
      (update ticks sin_ticks s).g_game_over = true ∧
      (update ticks sin_ticks s).g_player_won = 1) ∧
    (-1777/1000 < (update ticks sin_ticks s).ball_position.x ∧
      (update ticks sin_ticks s).ball_position.x < 1777/1000 →
      (update ticks sin_ticks s).g_game_over = false ∧
      (update ticks sin_ticks s).g_player_won = 0) := by
  rw [update_active_eq _ _ _ hg]
  dsimp only
  refine ⟨rfl, ?_, ?_, ?_⟩
  · intro h
    simp [h]
  · intro h
    have h2 : ¬ (moved_ball ticks s).x ≤ -1777/1000 := by
      have : (1777 : ℚ) / 1000 ≤ (moved_ball ticks s).x := h
      intro h3
      linarith
    simp [h, h2]
  · rintro ⟨h1, h2⟩
    have h3 : ¬ (moved_ball ticks s).x ≤ -1777/1000 := not_le.mpr h1
    have h4 : ¬ (moved_ball ticks s).x ≥ 1777/1000 := not_le.mpr h2
    simp only [h3, h4, or_self, decide_False, if_false, hw, and_self]

/-- C3: if both paddle offsets are in `[-0.75, 0.75]`, they still are after
`process_input` (any events and keys) and after `update` (any time, any value
of the sine); the initial state satisfies it, and so does every state the
main loop reaches from it. -/
theorem paddle_clamp_invariant (s : State) (h : paddles_in_bounds s)
    (events : List SDL_Event) (keys : KeyboardState) (ticks sin_ticks : ℚ)
    (inputs : List FrameInput) :
    paddles_in_bounds (process_input events keys s) ∧
    paddles_in_bounds (update ticks sin_ticks s) ∧
    paddles_in_bounds initialise ∧
    paddles_in_bounds (main_loop inputs initialise) :=
  ⟨process_input_in_bounds events keys s, update_in_bounds ticks sin_ticks s h,
    initialise_in_bounds, main_loop_in_bounds inputs initialise initialise_in_bounds⟩

/-! ## Reachable states -/

/-- Translation keeps the first three columns. -/
theorem translate_scaled (m : glm.mat4) (v : glm.vec3) (h : ball_matrix_scaled m) :
    ball_matrix_scaled (glm.translate m v) := h

/-- With the scale columns of `initialise`, the translation moves the ball by a
fifth of the given vector. -/
theorem moved_ball_scaled (ticks : ℚ) (s : State) (h : ball_matrix_scaled s.g_ball_matrix) :
    moved_ball ticks s =
      ⟨s.g_ball_matrix.c3.x + 1/5 * (s.g_ball_x_velocity * (ticks - s.g_previous_ticks)),
       s.g_ball_matrix.c3.y + 1/5 * (s.g_ball_y_velocity * (ticks - s.g_previous_ticks)),
       s.g_ball_matrix.c3.z⟩ := by
  obtain ⟨h0, h1, h2⟩ := h
  simp only [moved_ball, glm.vec3_of, glm.translate, glm.vec4.add, glm.vec4.mul, h0, h1, h2,
    glm.vec3.mk.injEq]
  refine ⟨?_, ?_, ?_⟩ <;> ring

/-- The ball matrix of `initialise` has the scale columns. -/
theorem initialise_scaled : ball_matrix_scaled initialise.g_ball_matrix := by
  simp [ball_matrix_scaled, initialise, glm.scale, glm.translate, glm.mat4_one, glm.vec4.mul]

/-- The function `update` keeps the scale columns of the ball matrix. -/
theorem update_ball_matrix_scaled (ticks sin_ticks : ℚ) (s : State)
    (h : ball_matrix_scaled s.g_ball_matrix) :
    ball_matrix_scaled (update ticks sin_ticks s).g_ball_matrix := by
  cases hg : s.g_game_over
  · rw [update_active_eq _ _ _ hg]
    exact h
  · rw [update_game_over _ _ _ hg]
    exact h

/-- The three outcomes of the paddle tests of `update`. -/
theorem update_velocity_cases (ticks sin_ticks : ℚ) (s : State) (hg : s.g_game_over = false) :
    (hits_left ticks s = false ∧ hits_right ticks s = false ∧
      (update ticks sin_ticks s).g_ball_x_velocity = s.g_ball_x_velocity) ∨
    (hits_left ticks s = true ∧ hits_right ticks s = false ∧
      (update ticks sin_ticks s).g_ball_x_velocity = |s.g_ball_x_velocity| * (6/5)) ∨
    (hits_left ticks s = false ∧ hits_right ticks s = true ∧
      (update ticks sin_ticks s).g_ball_x_velocity = -|s.g_ball_x_velocity| * (6/5)) := by
  rw [update_active_eq _ _ _ hg]
  dsimp only
  have hex := not_both_paddles (moved_ball ticks s) s.g_left_paddle_y s.g_right_paddle_y
  change ¬ (hits_left ticks s = true ∧ hits_right ticks s = true) at hex
  cases hl : hits_left ticks s <;> cases hr : hits_right ticks s
  · simp
  · simp
  · simp
  · exact absurd ⟨hl, hr⟩ hex

/-- A horizontal velocity that is not zero stays so. -/
theorem update_velocity_ne_zero (ticks sin_ticks : ℚ) (s : State)
    (h : s.g_ball_x_velocity ≠ 0) : (update ticks sin_ticks s).g_ball_x_velocity ≠ 0 := by
  cases hg : s.g_game_over
  · have habs : |s.g_ball_x_velocity| ≠ 0 := abs_ne_zero.mpr h
    rcases update_velocity_cases ticks sin_ticks s hg with ⟨_, _, e⟩ | ⟨_, _, e⟩ | ⟨_, _, e⟩
    · rw [e]; exact h
    · rw [e]; exact mul_ne_zero habs (by norm_num)
    · rw [e]; exact mul_ne_zero (neg_ne_zero.mpr habs) (by norm_num)
  · rw [update_game_over _ _ _ hg]
    exact h

/-- The main loop keeps the scale columns and a non-zero horizontal velocity. -/
theorem main_loop_reachable (inputs : List FrameInput) (s : State)
    (h : ball_matrix_scaled s.g_ball_matrix ∧ s.g_ball_x_velocity ≠ 0) :
    ball_matrix_scaled (main_loop inputs s).g_ball_matrix ∧
    (main_loop inputs s).g_ball_x_velocity ≠ 0 := by
  induction inputs generalizing s with
  | nil => exact h
  | cons i rest ih =>
    unfold main_loop
    split_ifs
    · apply ih
      unfold frame
      constructor
      · apply update_ball_matrix_scaled
        rw [process_input_eq]
        exact h.1
      · apply update_velocity_ne_zero
        rw [process_input_eq]
        exact h.2
    · exact h

/-- The function `update` keeps `ball_position` equal to the last column of the
ball matrix. -/
theorem update_ball_position_synced (ticks sin_ticks : ℚ) (s : State)
    (h : s.ball_position = glm.vec3_of s.g_ball_matrix.c3) :
    (update ticks sin_ticks s).ball_position =
      glm.vec3_of (update ticks sin_ticks s).g_ball_matrix.c3 := by
  cases hg : s.g_game_over
  · rw [update_active_eq _ _ _ hg]
    rfl
  · rw [update_game_over _ _ _ hg]
    exact h

/-- The main loop keeps `ball_position` equal to the last column of the ball matrix. -/
theorem main_loop_ball_position_synced (inputs : List FrameInput) (s : State)
    (h : s.ball_position = glm.vec3_of s.g_ball_matrix.c3) :
    (main_loop inputs s).ball_position = glm.vec3_of (main_loop inputs s).g_ball_matrix.c3 := by
  induction inputs generalizing s with
  | nil => exact h
  | cons i rest ih =>
    unfold main_loop
    split_ifs
    · apply ih
      unfold frame
      apply update_ball_position_synced
      rw [process_input_eq]
      exact h
    · exact h

/-- Initially `ball_position` is the last column of the ball matrix. -/
theorem initialise_ball_position_synced :
    initialise.ball_position = glm.vec3_of initialise.g_ball_matrix.c3 := by
  simp [initialise, glm.vec3_of, glm.scale, glm.translate, glm.mat4_one, glm.vec4.mul,
    glm.vec4.add]

/-- The initial state has the scale columns and a non-zero horizontal velocity. -/
theorem initialise_reachable :
    ball_matrix_scaled initialise.g_ball_matrix ∧ initialise.g_ball_x_velocity ≠ 0 :=
  ⟨initialise_scaled, by norm_num [initialise]⟩

/-! ## Claims, continued -/

/-- C1 (amended): in a Finished state one more frame leaves the ball matrix,
the ball position, both velocities, the winner, the Finished flag and both
paddle matrices as they were, and `update` alone leaves both paddle offsets as
they were; the paddle offsets after the frame are the ones `process_input`
computes from the keys (moved by `0.05` per held key and clamped). -/
theorem finished_frame_frozen (s : State) (h : s.g_game_over = true) (i : FrameInput) :
    (frame i s).g_ball_matrix = s.g_ball_matrix ∧
    (frame i s).ball_position = s.ball_position ∧
    (frame i s).g_ball_x_velocity = s.g_ball_x_velocity ∧
    (frame i s).g_ball_y_velocity = s.g_ball_y_velocity ∧
    (frame i s).g_player_won = s.g_player_won ∧
    (frame i s).g_game_over = true ∧
    (frame i s).g_left_paddle_matrix = s.g_left_paddle_matrix ∧
    (frame i s).g_right_paddle_matrix = s.g_right_paddle_matrix ∧
    (update i.ticks i.sin_ticks s).g_left_paddle_y = s.g_left_paddle_y ∧
    (update i.ticks i.sin_ticks s).g_right_paddle_y = s.g_right_paddle_y ∧
    (frame i s).g_left_paddle_y =
      glm.clamp (move_paddle i.keys.SDL_SCANCODE_W i.keys.SDL_SCANCODE_S s.g_left_paddle_y)
        (-3/4) (3/4) ∧
    (frame i s).g_right_paddle_y = (process_input i.events i.keys s).g_right_paddle_y := by
  have hp : (process_input i.events i.keys s).g_game_over = true := by
    rw [process_input_eq]
    exact h
  unfold frame
  rw [update_game_over _ _ _ hp, update_game_over _ _ _ h, process_input_eq]
  simp only [h, and_self]

/-- C6 (amended): from an Active state whose ball matrix has the scale columns
set by `initialise`, `update` moves the ball by `0.2 * velocity * dt` on both
axes (the translation is applied to the scaled ball matrix), where
`dt = ticks - g_previous_ticks` and the position is the last column of the
ball matrix; the scale columns are kept, so this holds in every state the
main loop reaches, where `ball_position` is that last column; from the
initial state with `dt = 1.0` the position read by `update` is `(0.5, 0.4)`. -/
theorem ball_advance_scaled (s : State) (hg : s.g_game_over = false)
    (hm : ball_matrix_scaled s.g_ball_matrix) (ticks sin_ticks : ℚ)
    (inputs : List FrameInput) :
    (update ticks sin_ticks s).ball_position.x =
      (glm.vec3_of s.g_ball_matrix.c3).x +
        1/5 * (s.g_ball_x_velocity * (ticks - s.g_previous_ticks)) ∧
    (update ticks sin_ticks s).ball_position.y =
      (glm.vec3_of s.g_ball_matrix.c3).y +
        1/5 * (s.g_ball_y_velocity * (ticks - s.g_previous_ticks)) ∧
    (update ticks sin_ticks s).ball_position =
      glm.vec3_of (update ticks sin_ticks s).g_ball_matrix.c3 ∧
    ball_matrix_scaled (update ticks sin_ticks s).g_ball_matrix ∧
    ball_matrix_scaled (main_loop inputs initialise).g_ball_matrix ∧
    (main_loop inputs initialise).ball_position =
      glm.vec3_of (main_loop inputs initialise).g_ball_matrix.c3 ∧
    (update 1 sin_ticks initialise).ball_position = ⟨1/2, 2/5, 0⟩ := by
  refine ⟨?_, ?_, ?_, update_ball_matrix_scaled _ _ _ hm,
    (main_loop_reachable inputs initialise initialise_reachable).1,
    main_loop_ball_position_synced inputs initialise initialise_ball_position_synced, ?_⟩
  · rw [update_active_eq _ _ _ hg]
    dsimp only
    rw [moved_ball_scaled _ _ hm]
    rfl
  · rw [update_active_eq _ _ _ hg]
    dsimp only
    rw [moved_ball_scaled _ _ hm]
    rfl
  · rw [update_active_eq _ _ _ hg]
    rfl
  · rw [update_active_eq _ _ _ rfl]
    dsimp only
    rw [moved_ball_scaled _ _ initialise_scaled]
    norm_num [initialise, glm.scale, glm.translate, glm.mat4_one, glm.vec4.mul, glm.vec4.add]

/-- C7: from an Active state, `update` negates the vertical velocity exactly
when the updated ball position has `y + 0.1 ≥ 1.0` or `y - 0.1 ≤ -1.0` and
leaves it unchanged otherwise; the updated position is the translated one,
stored unclamped in both `ball_position` and the ball matrix; when no paddle
is hit, the horizontal velocity is unchanged whether or not the wall bounce
fires. -/
theorem wall_bounce (s : State) (hg : s.g_game_over = false) (ticks sin_ticks : ℚ) :
    (update ticks sin_ticks s).g_ball_y_velocity =
      (if (update ticks sin_ticks s).ball_position.y + 1/10 ≥ 1 ∨
          (update ticks sin_ticks s).ball_position.y - 1/10 ≤ -1 then
        -s.g_ball_y_velocity
      else s.g_ball_y_velocity) ∧
    (update ticks sin_ticks s).ball_position =
      glm.vec3_of (glm.translate s.g_ball_matrix
        ⟨s.g_ball_x_velocity * (ticks - s.g_previous_ticks),
         s.g_ball_y_velocity * (ticks - s.g_previous_ticks), 0⟩).c3 ∧
    glm.vec3_of (update ticks sin_ticks s).g_ball_matrix.c3 =
      (update ticks sin_ticks s).ball_position ∧
    (check_collision (update ticks sin_ticks s).ball_position
        (glm.vec3_of (update ticks sin_ticks s).g_left_paddle_matrix.c3) (1/5) 1 (1/10) = false →
      check_collision (update ticks sin_ticks s).ball_position
        (glm.vec3_of (update ticks sin_ticks s).g_right_paddle_matrix.c3) (1/5) 1 (1/10) = false →
      (update ticks sin_ticks s).g_ball_x_velocity = s.g_ball_x_velocity) := by
  rw [update_active_eq _ _ _ hg]
  dsimp only
  rw [paddle_pos_eq, paddle_pos_eq]
  refine ⟨?_, rfl, rfl, ?_⟩
  · simp only [hits_wall, decide_eq_true_eq]
  · intro hl hr
    have hl2 : hits_left ticks s = false := hl
    have hr2 : hits_right ticks s = false := hr
    simp [hl2, hr2]

/-- C8 (amended): `process_input` flips `g_right_paddle_auto` once for every
`SDL_KEYDOWN` event of the T key in the event queue, key-repeat events
included, and no other event flips it; a single event flips it exactly when
it is such a key-down event. -/
theorem toggle_per_keydown (events : List SDL_Event) (event : SDL_Event)
    (keys : KeyboardState) (s : State) :
    (process_input events keys s).g_right_paddle_auto =
      flip_times (events.countP is_toggle_keydown) s.g_right_paddle_auto ∧
    (process_input [event] keys s).g_right_paddle_auto =
      (if event.type = SDL_KEYDOWN ∧ event.sym = SDLK_t then !s.g_right_paddle_auto
       else s.g_right_paddle_auto) := by
  rw [process_input_eq, process_input_eq]
  dsimp only
  refine ⟨rfl, ?_⟩
  by_cases h : event.type = SDL_KEYDOWN ∧ event.sym = SDLK_t
  · have hk : is_toggle_keydown event = true := by simp [is_toggle_keydown, h.1, h.2]
    simp [h, hk, flip_times, List.countP_cons]
  · have hk : is_toggle_keydown event = false := by
      simp only [is_toggle_keydown, Bool.and_eq_false_imp, decide_eq_true_eq,
        decide_eq_false_iff_not]
      intro h1 h2
      exact h ⟨h1, h2⟩
    simp [h, hk, flip_times, List.countP_cons]

/-- C10: for every ball position and every pair of paddle offsets the tests
against the left paddle (centre x `-1.6`) and the right paddle (centre x
`1.6`) are never both true; so from an Active state `update` detects at most
one paddle hit, and the horizontal velocity afterwards is the old one, or
`|old| * 1.2` (left hit only), or `-|old| * 1.2` (right hit only). -/
theorem paddle_hits_exclusive (ball_pos : glm.vec3) (left_y right_y : ℚ)
    (s : State) (hg : s.g_game_over = false) (ticks sin_ticks : ℚ) :
    ¬ (check_collision ball_pos ⟨-8/5, left_y, 0⟩ (1/5) 1 (1/10) = true ∧
       check_collision ball_pos ⟨8/5, right_y, 0⟩ (1/5) 1 (1/10) = true) ∧
    ¬ (check_collision (update ticks sin_ticks s).ball_position
         (glm.vec3_of (update ticks sin_ticks s).g_left_paddle_matrix.c3) (1/5) 1 (1/10) = true ∧
       check_collision (update ticks sin_ticks s).ball_position
         (glm.vec3_of (update ticks sin_ticks s).g_right_paddle_matrix.c3) (1/5) 1 (1/10) = true) ∧
    ((update ticks sin_ticks s).g_ball_x_velocity = s.g_ball_x_velocity ∨
     (update ticks sin_ticks s).g_ball_x_velocity = |s.g_ball_x_velocity| * (6/5) ∨
     (update ticks sin_ticks s).g_ball_x_velocity = -|s.g_ball_x_velocity| * (6/5)) := by
  refine ⟨not_both_paddles ball_pos left_y right_y, ?_, ?_⟩
  · rw [update_active_eq _ _ _ hg]
    dsimp only
    rw [paddle_pos_eq, paddle_pos_eq]
    exact not_both_paddles _ _ _
  · rcases update_velocity_cases ticks sin_ticks s hg with ⟨_, _, e⟩ | ⟨_, _, e⟩ | ⟨_, _, e⟩
    · exact Or.inl e
    · exact Or.inr (Or.inl e)
    · exact Or.inr (Or.inr e)

/-! ## Evaluation of the concrete runs -/

/-- Without events and keys `process_input` leaves the initial state alone. -/
theorem process_input_idle : process_input [] no_keys initialise = initialise := by
  rw [process_input_eq]
  norm_num [initialise, no_keys, move_paddle, flip_times, glm.clamp, glm.min, glm.max]

/-- Where the first `update` puts the ball. -/
theorem moved_ball_initialise (ticks : ℚ) :
    moved_ball ticks initialise = ⟨1/2 * ticks, 2/5 * ticks, 0⟩ := by
  rw [moved_ball_scaled _ _ initialise_scaled]
  simp only [initialise, glm.scale, glm.translate, glm.mat4_one, glm.vec4.mul, glm.vec4.add,
    glm.vec3.mk.injEq]
  refine ⟨?_, ?_, ?_⟩ <;> ring

/-- The state after one idle frame of four seconds, field by field. -/
theorem finished_state_eq :
    finished_state =
      { initialise with
        g_previous_ticks := 4
        g_left_paddle_matrix := glm.translate glm.mat4_one ⟨-8/5, 0, 0⟩
        g_right_paddle_matrix := glm.translate glm.mat4_one ⟨8/5, 0, 0⟩
        g_ball_matrix := glm.translate initialise.g_ball_matrix ⟨5/2 * 4, 2 * 4, 0⟩
        ball_position := ⟨2, 8/5, 0⟩
        g_ball_y_velocity := -2
        g_game_over := true
        g_player_won := 1 } := by
  unfold finished_state frame idle_frame
  rw [process_input_idle, update_active_eq _ _ _ rfl]
  simp only [hits_wall, hits_left, hits_right, moved_ball_initialise, check_collision]
  norm_num [initialise]

/-! ## Counterexamples and instances -/

/-- C1 (as stated) fails: in the Finished state reached after one idle frame of
four seconds, a further frame with W held moves the left paddle offset. -/
theorem finished_frame_moves_paddle :
    finished_state.g_game_over = true ∧
    (frame ⟨[], key_w_held, 5, 0⟩ finished_state).g_left_paddle_y ≠
      finished_state.g_left_paddle_y := by
  have hg : finished_state.g_game_over = true := by rw [finished_state_eq]
  refine ⟨hg, ?_⟩
  have hp : (process_input [] key_w_held finished_state).g_game_over = true := by
    rw [process_input_eq]
    exact hg
  unfold frame
  rw [update_game_over _ _ _ hp, process_input_eq, finished_state_eq]
  norm_num [key_w_held, move_paddle, glm.clamp, glm.min, glm.max, initialise]

/-- Instance of C1 (amended) at the Finished state reached after one idle frame
of four seconds, with W held in the next frame: the winner stays player 1. -/
theorem finished_frame_frozen_witness :
    finished_state.g_game_over = true ∧
    (frame ⟨[], key_w_held, 5, 0⟩ finished_state).g_player_won = 1 ∧
    (frame ⟨[], key_w_held, 5, 0⟩ finished_state).ball_position = ⟨2, 8/5, 0⟩ := by
  have hg : finished_state.g_game_over = true := by rw [finished_state_eq]
  have h := finished_frame_frozen finished_state hg ⟨[], key_w_held, 5, 0⟩
  refine ⟨hg, ?_, ?_⟩
  · rw [h.2.2.2.2.1, finished_state_eq]
  · rw [h.2.1, finished_state_eq]

/-- Instance of C2: from the initial state a frame of four seconds puts the
ball at `x = 2 ≥ 1.777`, and player 1 (left) wins. -/
theorem win_condition_boundary_witness :
    initialise.g_game_over = false ∧ initialise.g_player_won = 0 ∧
    (update 4 0 initialise).g_game_over = true ∧
    (update 4 0 initialise).g_player_won = 1 := by
  refine ⟨rfl, rfl, (win_condition_boundary initialise rfl rfl 4 0).2.2.1 ?_⟩
  rw [update_active_eq _ _ _ rfl]
  norm_num [moved_ball_initialise]

/-- Instance of C3 at the initial state, with W held and the automatic paddle
delta at its largest. -/
theorem paddle_clamp_invariant_witness :
    paddles_in_bounds initialise ∧
    paddles_in_bounds (process_input [] key_w_held initialise) ∧
    paddles_in_bounds (update 1 1 initialise) ∧
    paddles_in_bounds initialise ∧
    paddles_in_bounds (main_loop [idle_frame 1] initialise) :=
  ⟨by norm_num [paddles_in_bounds, initialise],
    paddle_clamp_invariant initialise (by norm_num [paddles_in_bounds, initialise])
      [] key_w_held 1 1 [idle_frame 1]⟩

/-- C6 (as stated) fails: from the initial state (ball at `(0, 0)`, velocity
`(2.5, 2.0)`) with `dt = 1.0` the position read by `update` is `(0.5, 0.4)`,
not `(2.5, 2.0)`. -/
theorem ball_advance_initial :
    initialise.g_game_over = false ∧
    glm.vec3_of initialise.g_ball_matrix.c3 = ⟨0, 0, 0⟩ ∧
    initialise.g_ball_x_velocity = 5/2 ∧ initialise.g_ball_y_velocity = 2 ∧
    initialise.g_previous_ticks = 0 ∧
    (update 1 0 initialise).ball_position = ⟨1/2, 2/5, 0⟩ ∧
    (update 1 0 initialise).ball_position ≠ ⟨5/2, 2, 0⟩ := by
  have hp : (update 1 0 initialise).ball_position = ⟨1/2, 2/5, 0⟩ := by
    rw [update_active_eq _ _ _ rfl]
    norm_num [moved_ball_initialise]
  refine ⟨rfl, ?_, rfl, rfl, rfl, hp, ?_⟩
  · norm_num [initialise, glm.vec3_of, glm.scale, glm.translate, glm.mat4_one, glm.vec4.mul,
      glm.vec4.add]
  · rw [hp]
    norm_num

/-- Instance of C6 (amended) at the initial state with `dt = 1.0`. -/
theorem ball_advance_scaled_witness :
    initialise.g_game_over = false ∧
    ball_matrix_scaled initialise.g_ball_matrix ∧
    (update 1 0 initialise).ball_position = ⟨1/2, 2/5, 0⟩ :=
  ⟨rfl, initialise_scaled,
    (ball_advance_scaled initialise rfl
      (by simp [ball_matrix_scaled, initialise, glm.scale, glm.translate, glm.mat4_one,
        glm.vec4.mul])
      1 0 []).2.2.2.2.2.2⟩

/-- Instance of C7: from the initial state a frame of four seconds puts the
ball at `y = 1.6`, beyond the top wall, and the vertical velocity is negated. -/
theorem wall_bounce_witness :
    initialise.g_game_over = false ∧
    (update 4 0 initialise).ball_position.y = 8/5 ∧
    (update 4 0 initialise).g_ball_y_velocity = -2 := by
  have hp : (update 4 0 initialise).ball_position.y = 8/5 := by
    rw [update_active_eq _ _ _ rfl]
    norm_num [moved_ball_initialise]
  refine ⟨rfl, hp, ?_⟩
  rw [(wall_bounce initialise rfl 4 0).1, hp]
  norm_num [initialise]

/-- C8 (as stated) fails: the queue holds one up-to-down transition of T
followed by one key-repeat event of the held key; the flag is flipped twice
and ends as it started, instead of being flipped once. -/
theorem toggle_repeat_flips_again :
    List.countP is_toggle_press [toggle_press, toggle_repeat] = 1 ∧
    (process_input [toggle_press, toggle_repeat] no_keys initialise).g_right_paddle_auto =
      initialise.g_right_paddle_auto ∧
    (process_input [toggle_press, toggle_repeat] no_keys initialise).g_right_paddle_auto ≠
      flip_times (List.countP is_toggle_press [toggle_press, toggle_repeat])
        initialise.g_right_paddle_auto := by
  refine ⟨by decide, by decide, by decide⟩

/-- Instance of C10 at the initial state, with a ball position between the
paddles. -/
theorem paddle_hits_exclusive_witness :
    initialise.g_game_over = false ∧
    ((update 1 0 initialise).g_ball_x_velocity = initialise.g_ball_x_velocity ∨
     (update 1 0 initialise).g_ball_x_velocity = |initialise.g_ball_x_velocity| * (6/5) ∨
     (update 1 0 initialise).g_ball_x_velocity = -|initialise.g_ball_x_velocity| * (6/5)) :=
  ⟨rfl, (paddle_hits_exclusive ⟨0, 0, 0⟩ 0 0 initialise rfl 1 0).2.2⟩

/-! ## Binary32: error of one rounding -/

/-- A magnitude below `2^K` loses at most `K - 24` bits. -/
theorem f32.drop_bits_le (fuel a K : Nat) (hK : 24 ≤ K) (h : a < 2 ^ K) :
    f32.drop_bits fuel a ≤ K - 24 := by
  induction fuel generalizing a K with
  | zero => simp [f32.drop_bits]
  | succ f ih =>
    unfold f32.drop_bits
    split_ifs with h24
    · exact Nat.zero_le _
    · have hK25 : 25 ≤ K := by
        by_contra hc
        have hK24 : K = 24 := by omega
        subst hK24
        exact h24 h
      have h2 : a / 2 < 2 ^ (K - 1) := by
        have : 2 ^ K = 2 ^ (K - 1) * 2 := by
          rw [← pow_succ]
          congr 1
          omega
        rw [this] at h
        exact Nat.div_lt_of_lt_mul (by rw [mul_comm]; exact h)
      have := ih (a / 2) (K - 1) (by omega) h2
      omega

/-- Rounding to nearest, ties to even, at bit `s` moves a number by at most half
of `2^s`. -/
theorem f32.round_nat_err (a s : Nat) :
    let q := a / 2 ^ s
    let r := a % 2 ^ s
    let q1 :=
      if 2 * r < 2 ^ s then q
      else if 2 * r > 2 ^ s then q + 1
      else if q % 2 = 0 then q else q + 1
    2 * |((q1 * 2 ^ s : Nat) : Int) - (a : Int)| ≤ ((2 ^ s : Nat) : Int) := by
  intro q r q1
  have hdm : 2 ^ s * q + r = a := Nat.div_add_mod a (2 ^ s)
  have hr : r < 2 ^ s := Nat.mod_lt _ (by positivity)
  generalize hp : 2 ^ s = p at *
  have hq : q1 = q ∧ 2 * r ≤ p ∨ q1 = q + 1 ∧ p ≤ 2 * r := by
    simp only [q1]
    split_ifs with h1 h2 h3
    · left; exact ⟨rfl, by omega⟩
    · right; exact ⟨rfl, by omega⟩
    · left; exact ⟨rfl, by omega⟩
    · right; exact ⟨rfl, by omega⟩
  have hpq : (p : Int) * q + r = a := by exact_mod_cast hdm
  rcases hq with ⟨e, h⟩ | ⟨e, h⟩
  · rw [e]
    have : ((q * p : Nat) : Int) - (a : Int) = -(r : Int) := by
      push_cast
      linarith
    rw [this, abs_neg, abs_of_nonneg (by positivity)]
    exact_mod_cast h
  · rw [e]
    have : (((q + 1) * p : Nat) : Int) - (a : Int) = (p : Int) - r := by
      push_cast
      linarith
    have hnn : (0 : Int) ≤ (p : Int) - r := by
      have : (r : Int) < p := by exact_mod_cast hr
      linarith
    rw [this, abs_of_nonneg hnn]
    have : (p : Int) ≤ 2 * r := by exact_mod_cast h
    linarith

/-- The error of `f32.round_scaled` on a magnitude below `2^K`: at most half of
`2^(K - 24)` units (before the scaling by `2^k`). -/
theorem f32.round_scaled_err (n : Int) (k K : Nat) (hK : 24 + k ≤ K) (h : |n| < 2 ^ K) :
    2 * |f32.round_scaled n k * 2 ^ k - n| ≤ 2 ^ (K - 24) := by
  have ha : n.natAbs < 2 ^ K := by
    have : ((n.natAbs : Nat) : Int) < ((2 ^ K : Nat) : Int) := by
      rw [Int.natCast_natAbs]
      exact_mod_cast h
    exact_mod_cast this
  have hs : Nat.max (f32.drop_bits n.natAbs n.natAbs) k ≤ K - 24 :=
    Nat.max_le.mpr ⟨f32.drop_bits_le _ _ K (by omega) ha, by omega⟩
  have hks : k ≤ Nat.max (f32.drop_bits n.natAbs n.natAbs) k := Nat.le_max_right _ _
  generalize hsdef : Nat.max (f32.drop_bits n.natAbs n.natAbs) k = s at hs hks
  have herr := f32.round_nat_err n.natAbs s
  simp only at herr
  unfold f32.round_scaled
  simp only [hsdef]
  generalize hq1 : (if 2 * (n.natAbs % 2 ^ s) < 2 ^ s then n.natAbs / 2 ^ s
      else if 2 * (n.natAbs % 2 ^ s) > 2 ^ s then n.natAbs / 2 ^ s + 1
      else if n.natAbs / 2 ^ s % 2 = 0 then n.natAbs / 2 ^ s else n.natAbs / 2 ^ s + 1) = q1
    at herr ⊢
  have hpow : ((q1 * 2 ^ (s - k) : Nat) : Int) * 2 ^ k = ((q1 * 2 ^ s : Nat) : Int) := by
    push_cast
    rw [mul_assoc, ← pow_add]
    congr 2
    omega
  have hmono : ((2 ^ s : Nat) : Int) ≤ 2 ^ (K - 24) := by
    push_cast
    exact pow_le_pow_right₀ (by norm_num) hs
  have hn : n = n.sign * (n.natAbs : Int) := (Int.sign_mul_natAbs n).symm
  have hdiff : n.sign * ((q1 * 2 ^ (s - k) : Nat) : Int) * 2 ^ k - n
      = n.sign * (((q1 * 2 ^ s : Nat) : Int) - (n.natAbs : Int)) := by
    rw [mul_assoc, hpow, mul_sub, ← hn]
  rw [hdiff, abs_mul]
  have hsign : |n.sign| ≤ 1 := by
    rcases lt_trichotomy n 0 with h0 | h0 | h0
    · rw [Int.sign_eq_neg_one_of_neg h0]; simp
    · rw [h0]; simp
    · rw [Int.sign_eq_one_of_pos h0]; simp
  have habs : (0 : Int) ≤ |((q1 * 2 ^ s : Nat) : Int) - (n.natAbs : Int)| := abs_nonneg _
  calc 2 * (|n.sign| * |((q1 * 2 ^ s : Nat) : Int) - (n.natAbs : Int)|)
      ≤ 2 * (1 * |((q1 * 2 ^ s : Nat) : Int) - (n.natAbs : Int)|) := by
        apply mul_le_mul_of_nonneg_left _ (by norm_num)
        exact mul_le_mul_of_nonneg_right hsign habs
    _ = 2 * |((q1 * 2 ^ s : Nat) : Int) - (n.natAbs : Int)| := by rw [one_mul]
    _ ≤ ((2 ^ s : Nat) : Int) := herr
    _ ≤ 2 ^ (K - 24) := hmono

/-- The error of one rounded sum of magnitude below `2^K` units. -/
theorem f32.round_err (n : Int) (K : Nat) (hK : 24 ≤ K) (h : |n| < 2 ^ K) :
    2 * |f32.round n - n| ≤ 2 ^ (K - 24) := by
  have := f32.round_scaled_err n 0 K (by omega) h
  simpa [f32.round] using this

/-- The error of one halving of a magnitude below `2^K` units. -/
theorem f32.half_err (n : Int) (K : Nat) (hK : 25 ≤ K) (h : |n| < 2 ^ K) :
    2 * |f32.half n * 2 - n| ≤ 2 ^ (K - 24) := by
  have := f32.round_scaled_err n 1 K (by omega) h
  simpa [f32.half] using this

/-! ## Binary32: the collision test -/

/-- A bound on twice a magnitude, as two inequalities. -/
theorem two_abs_le (d B : Int) (h : 2 * |d| ≤ B) : -B ≤ 2 * d ∧ 2 * d ≤ B := by
  constructor <;> linarith [neg_abs_le d, le_abs_self d]

/-- One axis of `check_collision_f32`: with all magnitudes below 2 (`2^150`
units), the rounded test holds when the exact one holds with `2^-21` to spare
(`2^129` in doubled units), and when it holds the exact one fails by at most
that much. -/
theorem axis_test_near (b p w r : Int) (hb : |b| < 2 ^ 150) (hp : |p| < 2 ^ 150)
    (hw : |w| < 2 ^ 150) (hr : |r| < 2 ^ 150) :
    (2 * |b - p| + 2 ^ 129 ≤ w + 2 * r →
      f32.add b r ≥ f32.sub p (f32.half w) ∧ f32.sub b r ≤ f32.add p (f32.half w)) ∧
    (f32.add b r ≥ f32.sub p (f32.half w) ∧ f32.sub b r ≤ f32.add p (f32.half w) →
      2 * |b - p| ≤ w + 2 * r + 2 ^ 129) := by
  have eh := two_abs_le _ _ (f32.half_err w 150 (by norm_num) hw)
  rw [abs_lt] at hb hp hw hr
  norm_num at eh hb hp hw hr
  have hh : |f32.half w| < 2 ^ 150 := by
    rw [abs_lt]; norm_num; constructor <;> omega
  have e1 := two_abs_le _ _ (f32.round_err (b + r) 151 (by norm_num)
    (by rw [abs_lt]; norm_num; constructor <;> omega))
  have e2 := two_abs_le _ _ (f32.round_err (b - r) 151 (by norm_num)
    (by rw [abs_lt]; norm_num; constructor <;> omega))
  rw [abs_lt] at hh
  norm_num at hh
  have e3 := two_abs_le _ _ (f32.round_err (p + f32.half w) 151 (by norm_num)
    (by rw [abs_lt]; norm_num; constructor <;> omega))
  have e4 := two_abs_le _ _ (f32.round_err (p - f32.half w) 151 (by norm_num)
    (by rw [abs_lt]; norm_num; constructor <;> omega))
  norm_num at e1 e2 e3 e4
  unfold f32.add f32.sub
  generalize f32.round (b + r) = A at *
  generalize f32.round (b - r) = B at *
  generalize f32.round (p + f32.half w) = C at *
  generalize f32.round (p - f32.half w) = D at *
  generalize f32.half w = H at *
  constructor
  · intro h
    have h1 := neg_abs_le (b - p)
    have h2 := le_abs_self (b - p)
    constructor <;> omega
  · rintro ⟨h1, h2⟩
    rcases abs_cases (b - p) with ⟨e, _⟩ | ⟨e, _⟩ <;> rw [e] <;> omega

/-- Magnitude below 2, in units. -/
theorem to_rat_abs_lt_two (n : Int) : |f32.to_rat n| < 2 ↔ |n| < 2 ^ 150 := by
  unfold f32.to_rat
  rw [abs_div, abs_of_pos (by positivity : (0 : ℚ) < 2 ^ 149), div_lt_iff₀ (by positivity)]
  have : (2 : ℚ) * 2 ^ 149 = ((2 ^ 150 : Int) : ℚ) := by norm_num
  rw [this, ← Int.cast_abs, Int.cast_lt]

/-- The exact test with `2^-21` to spare, in units. -/
theorem to_rat_inner_iff (b p w r : Int) :
    (|f32.to_rat b - f32.to_rat p| + 1 / 2 ^ 21 ≤ f32.to_rat w / 2 + f32.to_rat r) ↔
      2 * |b - p| + 2 ^ 129 ≤ w + 2 * r := by
  unfold f32.to_rat
  rw [← sub_div, abs_div, abs_of_pos (by positivity : (0 : ℚ) < 2 ^ 149)]
  have e1 : |(b : ℚ) - p| / 2 ^ 149 + 1 / 2 ^ 21 = (2 * |(b : ℚ) - p| + 2 ^ 129) / 2 ^ 150 := by
    ring
  have e2 : (w : ℚ) / 2 ^ 149 / 2 + r / 2 ^ 149 = (w + 2 * r) / 2 ^ 150 := by ring
  rw [e1, e2, div_le_div_iff_of_pos_right (by positivity)]
  constructor
  · intro h
    exact_mod_cast h
  · intro h
    exact_mod_cast h

/-- The exact test missed by at most `2^-21`, in units. -/
theorem to_rat_outer_iff (b p w r : Int) :
    (|f32.to_rat b - f32.to_rat p| ≤ f32.to_rat w / 2 + f32.to_rat r + 1 / 2 ^ 21) ↔
      2 * |b - p| ≤ w + 2 * r + 2 ^ 129 := by
  unfold f32.to_rat
  rw [← sub_div, abs_div, abs_of_pos (by positivity : (0 : ℚ) < 2 ^ 149)]
  have e1 : |(b : ℚ) - p| / 2 ^ 149 = (2 * |(b : ℚ) - p|) / 2 ^ 150 := by ring
  have e2 : (w : ℚ) / 2 ^ 149 / 2 + r / 2 ^ 149 + 1 / 2 ^ 21 = (w + 2 * r + 2 ^ 129) / 2 ^ 150 := by
    ring
  rw [e1, e2, div_le_div_iff_of_pos_right (by positivity)]
  constructor
  · intro h
    exact_mod_cast h
  · intro h
    exact_mod_cast h

/-- C4 (amended): `check_collision`, with its sums rounded to binary32, agrees
with the bounding test `|ball.x - paddle.x| ≤ width/2 + radius` and
`|ball.y - paddle.y| ≤ height/2 + radius` up to `2^-21` on inputs of magnitude
below 2: it returns true when both bounds hold with `2^-21` to spare, and when
it returns true both bounds hold up to `2^-21`. -/
theorem check_collision_f32_near_abs (ball_pos paddle_pos : glm.vec3_f32)
    (paddle_width paddle_height ball_radius : Int)
    (hbx : |f32.to_rat ball_pos.x| < 2) (hby : |f32.to_rat ball_pos.y| < 2)
    (hpx : |f32.to_rat paddle_pos.x| < 2) (hpy : |f32.to_rat paddle_pos.y| < 2)
    (hw : |f32.to_rat paddle_width| < 2) (hh : |f32.to_rat paddle_height| < 2)
    (hr : |f32.to_rat ball_radius| < 2) :
    (|f32.to_rat ball_pos.x - f32.to_rat paddle_pos.x| + 1 / 2 ^ 21 ≤
        f32.to_rat paddle_width / 2 + f32.to_rat ball_radius ∧
      |f32.to_rat ball_pos.y - f32.to_rat paddle_pos.y| + 1 / 2 ^ 21 ≤
        f32.to_rat paddle_height / 2 + f32.to_rat ball_radius →
      check_collision_f32 ball_pos paddle_pos paddle_width paddle_height ball_radius = true) ∧
    (check_collision_f32 ball_pos paddle_pos paddle_width paddle_height ball_radius = true →
      |f32.to_rat ball_pos.x - f32.to_rat paddle_pos.x| ≤
        f32.to_rat paddle_width / 2 + f32.to_rat ball_radius + 1 / 2 ^ 21 ∧
      |f32.to_rat ball_pos.y - f32.to_rat paddle_pos.y| ≤
        f32.to_rat paddle_height / 2 + f32.to_rat ball_radius + 1 / 2 ^ 21) := by
  rw [to_rat_abs_lt_two] at hbx hby hpx hpy hw hh hr
  rw [to_rat_inner_iff, to_rat_inner_iff, to_rat_outer_iff, to_rat_outer_iff]
  have hx := axis_test_near ball_pos.x paddle_pos.x paddle_width ball_radius hbx hpx hw hr
  have hy := axis_test_near ball_pos.y paddle_pos.y paddle_height ball_radius hby hpy hh hr
  simp only [check_collision_f32, Bool.and_eq_true, decide_eq_true_eq]
  constructor
  · rintro ⟨h1, h2⟩
    exact ⟨hx.1 h1, hy.1 h2⟩
  · rintro ⟨h1, h2⟩
    exact ⟨hx.2 h1, hy.2 h2⟩

/-- C4 (as stated) fails: with the ball at `(-1.6f, -1.35f)`, the paddle at
`(-1.6f, -0.75f)`, width `0.2f`, height `1.0f` and radius `0.1f` (all binary32
values), `check_collision` returns true, because `-1.35f + 0.1f` rounds to
`-1.25`, although `|ball.y - paddle.y| = 0.60000002...` exceeds
`height/2 + radius = 0.60000000149...`. -/
theorem check_collision_f32_rounding :
    f32.round (-13421773 * 2 ^ 126) = -13421773 * 2 ^ 126 ∧
    f32.round (-11324621 * 2 ^ 126) = -11324621 * 2 ^ 126 ∧
    f32.round (13421773 * 2 ^ 123) = 13421773 * 2 ^ 123 ∧
    f32.round (13421773 * 2 ^ 122) = 13421773 * 2 ^ 122 ∧
    f32.add (-11324621 * 2 ^ 126) (13421773 * 2 ^ 122) = -5 * 2 ^ 147 ∧
    check_collision_f32 ⟨-13421773 * 2 ^ 126, -11324621 * 2 ^ 126, 0⟩
      ⟨-13421773 * 2 ^ 126, -3 * 2 ^ 147, 0⟩ (13421773 * 2 ^ 123) (2 ^ 149)
      (13421773 * 2 ^ 122) = true ∧
    ¬ (|f32.to_rat (-11324621 * 2 ^ 126) - f32.to_rat (-3 * 2 ^ 147)| ≤
        f32.to_rat (2 ^ 149) / 2 + f32.to_rat (13421773 * 2 ^ 122)) := by
  refine ⟨by decide, by decide, by decide, by decide, by decide, by decide, ?_⟩
  norm_num [f32.to_rat, abs_of_neg]

/-- Instance of C4 (amended): the ball at `(-1.5, 0)` and the left paddle at
`(-1.6f, 0)` pass the bounding test with room to spare, so `check_collision`
returns true. -/
theorem check_collision_f32_near_abs_witness :
    check_collision_f32 ⟨-3 * 2 ^ 148, 0, 0⟩ ⟨-13421773 * 2 ^ 126, 0, 0⟩
      (13421773 * 2 ^ 123) (2 ^ 149) (13421773 * 2 ^ 122) = true :=
  (check_collision_f32_near_abs ⟨-3 * 2 ^ 148, 0, 0⟩ ⟨-13421773 * 2 ^ 126, 0, 0⟩
    (13421773 * 2 ^ 123) (2 ^ 149) (13421773 * 2 ^ 122)
    (by norm_num [f32.to_rat, abs_lt]) (by norm_num [f32.to_rat, abs_lt])
    (by norm_num [f32.to_rat, abs_lt]) (by norm_num [f32.to_rat, abs_lt])
    (by norm_num [f32.to_rat, abs_lt]) (by norm_num [f32.to_rat, abs_lt])
    (by norm_num [f32.to_rat, abs_lt])).1
    (by norm_num [f32.to_rat, abs_of_pos])

/-! ## Binary32: the paddle offsets -/

/-- One event changes at most the application status and the automatic-mode
flag (binary32 model). -/
theorem handle_event_f32_eq (s : InputGlobals_f32) (event : SDL_Event) :
    handle_event_f32 s event =
      { s with
        g_app_status := if is_quit event then AppStatus.TERMINATED else s.g_app_status
        g_right_paddle_auto :=
          if is_toggle_keydown event then !s.g_right_paddle_auto else s.g_right_paddle_auto } := by
  unfold handle_event_f32 is_quit is_toggle_keydown
  cases s
  split_ifs <;> simp_all

/-- The event loop in the binary32 model. -/
theorem foldl_handle_event_f32_eq (events : List SDL_Event) (s : InputGlobals_f32) :
    events.foldl handle_event_f32 s =
      { s with
        g_app_status := if events.any is_quit then AppStatus.TERMINATED else s.g_app_status
        g_right_paddle_auto :=
          flip_times (events.countP is_toggle_keydown) s.g_right_paddle_auto } := by
  induction events generalizing s with
  | nil => simp [flip_times_zero]
  | cons e rest ih =>
    rw [List.foldl_cons, ih, handle_event_f32_eq]
    by_cases hq : is_quit e = true <;> by_cases hk : is_toggle_keydown e = true <;>
      simp [hq, hk, List.countP_cons, flip_times_succ]

/-- The state after `process_input_f32`, field by field. -/
theorem process_input_f32_eq (events : List SDL_Event) (keys : KeyboardState)
    (s : InputGlobals_f32) :
    process_input_f32 events keys s =
      { g_app_status := if events.any is_quit then AppStatus.TERMINATED else s.g_app_status
        g_right_paddle_auto :=
          flip_times (events.countP is_toggle_keydown) s.g_right_paddle_auto
        g_left_paddle_y :=
          glm.clamp_f32
            (move_paddle_f32 keys.SDL_SCANCODE_W keys.SDL_SCANCODE_S s.g_left_paddle_y)
            (-f32.lit_0_75) f32.lit_0_75
        g_right_paddle_y :=
          glm.clamp_f32
            (if flip_times (events.countP is_toggle_keydown) s.g_right_paddle_auto then
              s.g_right_paddle_y
            else move_paddle_f32 keys.SDL_SCANCODE_UP keys.SDL_SCANCODE_DOWN s.g_right_paddle_y)
            (-f32.lit_0_75) f32.lit_0_75 } := by
  unfold process_input_f32 move_paddle_f32
  rw [foldl_handle_event_f32_eq]
  rcases keys with ⟨w, d, up, down⟩
  cases w <;> cases d <;> cases up <;> cases down <;>
    cases flip_times (List.countP is_toggle_keydown events) s.g_right_paddle_auto <;> simp

/-- Adding and subtracting `0.05f` and clamping moves an offset inside
`[-0.75, 0.75]` by at most `2^125` units, that is `2^-24`. -/
theorem both_keys_f32_near (y : Int) (h1 : -f32.lit_0_75 ≤ y) (h2 : y ≤ f32.lit_0_75) :
    |both_keys_f32 y - y| ≤ 2 ^ 125 := by
  unfold f32.lit_0_75 at h1 h2
  norm_num at h1 h2
  have e1 := two_abs_le _ _ (f32.round_err (y + f32.lit_0_05) 149 (by norm_num)
    (by rw [abs_lt]; norm_num [f32.lit_0_05]; constructor <;> omega))
  norm_num [f32.lit_0_05] at e1
  have e2 := two_abs_le _ _
    (f32.round_err (f32.round (y + 13421773 * 2 ^ 121) - f32.lit_0_05) 149 (by norm_num)
      (by rw [abs_lt]; norm_num [f32.lit_0_05]; constructor <;> omega))
  norm_num [f32.lit_0_05] at e2
  unfold both_keys_f32 f32.add f32.sub glm.clamp_f32 glm.min_f32 glm.max_f32
  norm_num [f32.lit_0_05, f32.lit_0_75]
  rw [abs_le]
  split_ifs <;> constructor <;> omega

/-- A distance of at most `2^-24`, in units. -/
theorem to_rat_near_iff (a y : Int) :
    |f32.to_rat a - f32.to_rat y| ≤ 1 / 2 ^ 24 ↔ |a - y| ≤ 2 ^ 125 := by
  unfold f32.to_rat
  rw [← sub_div, abs_div, abs_of_pos (by positivity : (0 : ℚ) < 2 ^ 149)]
  have e2 : (1 : ℚ) / 2 ^ 24 = 2 ^ 125 / 2 ^ 149 := by norm_num
  rw [e2, div_le_div_iff_of_pos_right (by positivity)]
  constructor
  · intro h
    exact_mod_cast h
  · intro h
    exact_mod_cast h

/-- What `both_keys_f32` gives at the offsets `0`, `0.75f` and `-0.75f`. -/
theorem both_keys_f32_fixed :
    both_keys_f32 0 = 0 ∧ both_keys_f32 f32.lit_0_75 = f32.lit_0_75 ∧
    both_keys_f32 (-f32.lit_0_75) = -f32.lit_0_75 := by
  refine ⟨by decide, by decide, by decide⟩

/-- C9 (amended): with W and S both held, `process_input` in binary32 turns a
left paddle offset `y` in `[-0.75, 0.75]` into
`clamp(round(round(y + 0.05f) - 0.05f))`, with no clamp between the two steps;
the result is within `2^-24` of `y`, and equal to `y` at `0` and at the bounds
`0.75` and `-0.75`; the same holds for the right paddle with UP and DOWN held
and the automatic mode off. -/
theorem both_keys_cancel_f32 (events : List SDL_Event) (keys : KeyboardState)
    (s : InputGlobals_f32) :
    (-f32.lit_0_75 ≤ s.g_left_paddle_y ∧ s.g_left_paddle_y ≤ f32.lit_0_75 →
      keys.SDL_SCANCODE_W = true → keys.SDL_SCANCODE_S = true →
      (process_input_f32 events keys s).g_left_paddle_y = both_keys_f32 s.g_left_paddle_y ∧
      |f32.to_rat (process_input_f32 events keys s).g_left_paddle_y -
          f32.to_rat s.g_left_paddle_y| ≤ 1 / 2 ^ 24 ∧
      (s.g_left_paddle_y = 0 ∨ s.g_left_paddle_y = f32.lit_0_75 ∨
          s.g_left_paddle_y = -f32.lit_0_75 →
        (process_input_f32 events keys s).g_left_paddle_y = s.g_left_paddle_y)) ∧
    (-f32.lit_0_75 ≤ s.g_right_paddle_y ∧ s.g_right_paddle_y ≤ f32.lit_0_75 →
      keys.SDL_SCANCODE_UP = true → keys.SDL_SCANCODE_DOWN = true →
      (process_input_f32 events keys s).g_right_paddle_auto = false →
      (process_input_f32 events keys s).g_right_paddle_y = both_keys_f32 s.g_right_paddle_y ∧
      |f32.to_rat (process_input_f32 events keys s).g_right_paddle_y -
          f32.to_rat s.g_right_paddle_y| ≤ 1 / 2 ^ 24 ∧
      (s.g_right_paddle_y = 0 ∨ s.g_right_paddle_y = f32.lit_0_75 ∨
          s.g_right_paddle_y = -f32.lit_0_75 →
        (process_input_f32 events keys s).g_right_paddle_y = s.g_right_paddle_y)) := by
  have hfix : ∀ y : Int, (y = 0 ∨ y = f32.lit_0_75 ∨ y = -f32.lit_0_75) →
      both_keys_f32 y = y := by
    rintro y (e | e | e) <;> rw [e]
    · exact both_keys_f32_fixed.1
    · exact both_keys_f32_fixed.2.1
    · exact both_keys_f32_fixed.2.2
  rw [process_input_f32_eq]
  dsimp only
  constructor
  · intro hb hw hs
    rw [hw, hs]
    have e : glm.clamp_f32 (move_paddle_f32 true true s.g_left_paddle_y)
        (-f32.lit_0_75) f32.lit_0_75 = both_keys_f32 s.g_left_paddle_y := rfl
    rw [e, to_rat_near_iff]
    exact ⟨rfl, both_keys_f32_near _ hb.1 hb.2, hfix _⟩
  · intro hb hu hd ha
    rw [hu, hd, ha]
    have e : glm.clamp_f32 (move_paddle_f32 true true s.g_right_paddle_y)
        (-f32.lit_0_75) f32.lit_0_75 = both_keys_f32 s.g_right_paddle_y := rfl
    simp only [Bool.false_eq_true, if_false]
    rw [e, to_rat_near_iff]
    exact ⟨rfl, both_keys_f32_near _ hb.1 hb.2, hfix _⟩

/-- C9 (as stated) fails: after two frames with W held the left paddle offset
is `0.1f` (`13421773 * 2^-27`, inside the bounds); a frame with W and S both
held then leaves `13421774 * 2^-27`, one unit in the last place higher. -/
theorem both_keys_drift :
    two_w_frames_f32.g_left_paddle_y = 13421773 * 2 ^ 122 ∧
    -f32.lit_0_75 ≤ two_w_frames_f32.g_left_paddle_y ∧
    two_w_frames_f32.g_left_paddle_y ≤ f32.lit_0_75 ∧
    (process_input_f32 [] key_w_s_held two_w_frames_f32).g_left_paddle_y =
      13421774 * 2 ^ 122 ∧
    (process_input_f32 [] key_w_s_held two_w_frames_f32).g_left_paddle_y ≠
      two_w_frames_f32.g_left_paddle_y := by
  refine ⟨by decide, by decide, by decide, by decide, by decide⟩

/-- Instance of C9 (amended) with the left paddle at `0.75f`, the right paddle
at `-0.75f` and W, S, UP and DOWN all held: both offsets stay. -/
theorem both_keys_cancel_f32_witness :
    (process_input_f32 [] all_keys_held at_bounds_f32).g_left_paddle_y = f32.lit_0_75 ∧
    (process_input_f32 [] all_keys_held at_bounds_f32).g_right_paddle_y = -f32.lit_0_75 :=
  ⟨((both_keys_cancel_f32 [] all_keys_held at_bounds_f32).1
      (by decide) rfl rfl).2.2 (Or.inr (Or.inl rfl)),
    ((both_keys_cancel_f32 [] all_keys_held at_bounds_f32).2
      (by decide) rfl rfl (by decide)).2.2 (Or.inr (Or.inr rfl))⟩

/-! ## Reachable states and the paddle hits -/

/-- The horizontal velocity is not zero in any reachable state. -/
theorem reachable_velocity_ne_zero (s : State) (h : Reachable s) :
    s.g_ball_x_velocity ≠ 0 := by
  induction h with
  | start => norm_num [initialise]
  | input s events keys _ ih =>
    rw [process_input_eq]
    exact ih
  | tick s ticks sin_ticks _ ih => exact update_velocity_ne_zero _ _ _ ih

/-- Every state of the main loop is reachable. -/
theorem main_loop_is_reachable (inputs : List FrameInput) (s : State) (h : Reachable s) :
    Reachable (main_loop inputs s) := by
  induction inputs generalizing s with
  | nil => exact h
  | cons i rest ih =>
    unfold main_loop
    split_ifs
    · exact ih _ (Reachable.tick _ _ _ (Reachable.input _ _ _ h))
    · exact h

/-- The state after one idle frame that ends at 2.25 s, field by field. -/
theorem bounced_state_eq :
    bounced_state =
      { initialise with
        g_previous_ticks := 9/4
        g_left_paddle_matrix := glm.translate glm.mat4_one ⟨-8/5, 0, 0⟩
        g_right_paddle_matrix := glm.translate glm.mat4_one ⟨8/5, 0, 0⟩
        g_ball_matrix := glm.translate initialise.g_ball_matrix ⟨5/2 * (9/4), 2 * (9/4), 0⟩
        ball_position := ⟨9/8, 9/10, 0⟩
        g_ball_y_velocity := -2 } := by
  unfold bounced_state
  rw [update_active_eq _ _ _ rfl]
  simp only [hits_wall, hits_left, hits_right, moved_ball_initialise, check_collision]
  norm_num [initialise]

/-- From `bounced_state`, the frame that ends at 3 s puts the ball at
`(1.5, 0.6)`, where it touches the right paddle: the hit is detected and the
horizontal velocity becomes `-3`. -/
theorem bounced_state_update :
    bounced_state.g_game_over = false ∧
    (update 3 0 bounced_state).g_ball_x_velocity = -3 ∧
    check_collision (update 3 0 bounced_state).ball_position
      (glm.vec3_of (update 3 0 bounced_state).g_right_paddle_matrix.c3)
      (1/5) 1 (1/10) = true := by
  have hg : bounced_state.g_game_over = false := by
    rw [bounced_state_eq]
    rfl
  have hs : ball_matrix_scaled bounced_state.g_ball_matrix :=
    update_ball_matrix_scaled _ _ _ initialise_scaled
  have hp : moved_ball 3 bounced_state = ⟨3/2, 3/5, 0⟩ := by
    rw [moved_ball_scaled _ _ hs, bounced_state_eq]
    norm_num [initialise, glm.scale, glm.translate, glm.mat4_one, glm.vec4.mul, glm.vec4.add]
  refine ⟨hg, ?_, ?_⟩
  · rw [update_active_eq _ _ _ hg]
    simp only [hits_left, hits_right, hp, check_collision]
    rw [bounced_state_eq]
    norm_num [initialise, abs_of_pos]
  · rw [update_active_eq _ _ _ hg]
    simp only [hp, check_collision, paddle_pos_eq]
    rw [bounced_state_eq]
    norm_num [initialise]

/-- C5: from every Active state the program can reach, a left-paddle hit
detected by `update` gives a positive horizontal velocity, a right-paddle hit
a negative one, and in either case the magnitude after the frame is `1.2`
times the magnitude before it and strictly larger; the states of the main
loop, also after `process_input`, are reachable states. -/
theorem collision_monotonic (s : State) (hr : Reachable s) (hg : s.g_game_over = false)
    (ticks sin_ticks : ℚ) (inputs : List FrameInput) (events : List SDL_Event)
    (keys : KeyboardState) :
    (check_collision (update ticks sin_ticks s).ball_position
        (glm.vec3_of (update ticks sin_ticks s).g_left_paddle_matrix.c3) (1/5) 1 (1/10) = true →
      0 < (update ticks sin_ticks s).g_ball_x_velocity ∧
      |(update ticks sin_ticks s).g_ball_x_velocity| = 6/5 * |s.g_ball_x_velocity| ∧
      |s.g_ball_x_velocity| < |(update ticks sin_ticks s).g_ball_x_velocity|) ∧
    (check_collision (update ticks sin_ticks s).ball_position
        (glm.vec3_of (update ticks sin_ticks s).g_right_paddle_matrix.c3) (1/5) 1 (1/10) = true →
      (update ticks sin_ticks s).g_ball_x_velocity < 0 ∧
      |(update ticks sin_ticks s).g_ball_x_velocity| = 6/5 * |s.g_ball_x_velocity| ∧
      |s.g_ball_x_velocity| < |(update ticks sin_ticks s).g_ball_x_velocity|) ∧
    Reachable (main_loop inputs initialise) ∧
    Reachable (process_input events keys (main_loop inputs initialise)) := by
  have hv : s.g_ball_x_velocity ≠ 0 := reachable_velocity_ne_zero s hr
  have habs : 0 < |s.g_ball_x_velocity| := abs_pos.mpr hv
  have hL : check_collision (update ticks sin_ticks s).ball_position
      (glm.vec3_of (update ticks sin_ticks s).g_left_paddle_matrix.c3) (1/5) 1 (1/10)
      = hits_left ticks s := by
    rw [update_active_eq _ _ _ hg]
    dsimp only
    rw [paddle_pos_eq]
    rfl
  have hR : check_collision (update ticks sin_ticks s).ball_position
      (glm.vec3_of (update ticks sin_ticks s).g_right_paddle_matrix.c3) (1/5) 1 (1/10)
      = hits_right ticks s := by
    rw [update_active_eq _ _ _ hg]
    dsimp only
    rw [paddle_pos_eq]
    rfl
  rw [hL, hR]
  have hm : Reachable (main_loop inputs initialise) :=
    main_loop_is_reachable inputs initialise Reachable.start
  refine ⟨?_, ?_, hm, Reachable.input _ _ _ hm⟩
  · intro hl
    rcases update_velocity_cases ticks sin_ticks s hg with ⟨c, _, _⟩ | ⟨_, _, e⟩ | ⟨c, _, _⟩
    · rw [hl] at c; exact absurd c (by decide)
    · have hpos : 0 < |s.g_ball_x_velocity| * (6/5) := by positivity
      rw [e, abs_of_pos hpos]
      refine ⟨hpos, by ring, by linarith⟩
    · rw [hl] at c; exact absurd c (by decide)
  · intro hr
    rcases update_velocity_cases ticks sin_ticks s hg with ⟨_, c, _⟩ | ⟨_, c, _⟩ | ⟨_, _, e⟩
    · rw [hr] at c; exact absurd c (by decide)
    · rw [hr] at c; exact absurd c (by decide)
    · have hneg : -|s.g_ball_x_velocity| * (6/5) < 0 := by linarith
      rw [e, abs_of_neg hneg]
      refine ⟨hneg, by ring, by linarith⟩

/-- Instance of C5 at the reachable state `bounced_state`: in the frame that
ends at 3 s the ball touches the right paddle while moving right at `2.5`;
after `update` it moves left at `3`. -/
theorem collision_monotonic_witness :
    Reachable bounced_state ∧ bounced_state.g_game_over = false ∧
    (update 3 0 bounced_state).g_ball_x_velocity < 0 ∧
    (update 3 0 bounced_state).g_ball_x_velocity = -3 :=
  ⟨Reachable.tick _ _ _ Reachable.start, bounced_state_update.1,
    ((collision_monotonic bounced_state (Reachable.tick _ _ _ Reachable.start)
      bounced_state_update.1 3 0 [] [] no_keys).2.1 bounced_state_update.2.2).1,
    bounced_state_update.2.1⟩

end Project2
